import Mathlib

/-!
# Task service (`main.go`): shallow embedding and verified properties

The program is an in-memory HTTP task store.  Its global state (`tasks`,
`nextID`) becomes an explicit `Store` value threaded through every handler,
and a handler is a pure function `Store → Request → Store × Response`.

Modelling conventions.
* Go's `int` is rendered as `Int` at two levels.  `createTaskHandler` and
  `serve` carry out `nextID++` without a bound; they are used for the
  properties of runs from the initial store, where the counter starts at 1 and
  moves by one per creation.  `createTaskHandlerInt64` and `serveInt64` carry
  out `nextID++` with the wrap-around of a 64-bit `int`; they are used for the
  properties stated of an arbitrary store.  The two levels agree on every
  store whose counter is below `maxInt` (`serveInt64_eq_serve`).  `Atoi`
  rejects literals outside the 64-bit range.
* `json.NewDecoder(r.Body).Decode(&t)` is rendered by the field
  `Request.Body : Option Task`: `none` is a decoding error, `some t` the
  decoded struct (absent JSON fields hold their zero value).
* `http.Error(w, msg, code)` is the response `⟨code, .error msg⟩`; response
  headers are not modelled.
* The mutex `tasksMux` serialises the handlers; a handler is therefore one
  atomic transition of the store.
-/

namespace TaskApi

/-- Go struct `Task`. -/
structure Task where
  ID : Int
  Title : String
  Description : String
  Status : String
deriving DecidableEq, Repr

/-- The package-level variables `tasks` and `nextID`. -/
structure Store where
  tasks : List Task
  nextID : Int
deriving DecidableEq, Repr

/-- Initial values of the package-level variables: `tasks = []Task{}`, `nextID = 1`. -/
def initStore : Store := { tasks := [], nextID := 1 }

/-- The map `validStatuses`, as an association list. -/
def validStatuses : List (String × Bool) :=
  [("pending", true), ("completed", true)]

/-- Go `ValidateStatus`: whether the key is present in `validStatuses`. -/
def ValidateStatus (status : String) : Bool :=
  (validStatuses.lookup status).isSome

/-! ## `strconv.Atoi` (Go standard library, 64-bit `int`) -/

/-- Largest value of a 64-bit Go `int`. -/
def maxInt : Int := 9223372036854775807

/-- Smallest value of a 64-bit Go `int`. -/
def minInt : Int := -9223372036854775808

/-- Value of a decimal digit character, if it is one. -/
def digitVal (c : Char) : Option Nat :=
  if 48 ≤ c.toNat ∧ c.toNat ≤ 57 then some (c.toNat - 48) else none

/-- Left-to-right accumulation of a digit string; `none` on a non-digit. -/
def parseDigits : List Char → Nat → Option Nat
  | [], acc => some acc
  | c :: cs, acc =>
    match digitVal c with
    | none => none
    | some d => parseDigits cs (acc * 10 + d)

/-- Magnitude of an unsigned digit string; the empty string is a syntax error. -/
def parseMagnitude (ds : List Char) : Option Nat :=
  if ds = [] then none else parseDigits ds 0

/-- Range check of the signed result against the 64-bit `int` range. -/
def inRange (n : Int) : Option Int :=
  if minInt ≤ n ∧ n ≤ maxInt then some n else none

/-- Behaviour of `strconv.Atoi`: an optional sign followed by one or more
decimal digits, whose value fits a 64-bit `int`; anything else is an error. -/
def Atoi (s : String) : Option Int :=
  match s.data with
  | [] => none
  | '-' :: ds => (parseMagnitude ds).bind fun n => inRange (-(n : Int))
  | '+' :: ds => (parseMagnitude ds).bind fun n => inRange (n : Int)
  | ds => (parseMagnitude ds).bind fun n => inRange (n : Int)

/-! ## Requests and responses -/

/-- The parts of `*http.Request` the handlers read. -/
structure Request where
  Method : String
  Path : String
  Body : Option Task
deriving DecidableEq, Repr

/-- What a handler writes as the response body. -/
inductive Payload where
  | error (msg : String)
  | task (t : Task)
  | taskList (ts : List Task)
  | message (msg : String)
deriving DecidableEq, Repr

/-- Status code and body written to the `http.ResponseWriter`. -/
structure Response where
  code : Nat
  body : Payload
deriving DecidableEq, Repr

/-- Go `r.URL.Path[len("/tasks/"):]`. -/
def idSegment (path : String) : String := ⟨path.data.drop 7⟩

/-- The loop `for i, task := range tasks { if task.ID == id { ... return } }`:
index of the first task whose `ID` equals `id`. -/
def findTask : List Task → Int → Option Nat
  | [], _ => none
  | t :: ts, id => if t.ID = id then some 0 else (findTask ts id).map (· + 1)

/-! ## Handlers -/

/-- Go `createTaskHandler` (POST /tasks). -/
def createTaskHandler (s : Store) (r : Request) : Store × Response :=
  if r.Method ≠ "POST" then
    (s, ⟨405, .error "Invalid request method"⟩)
  else
    match r.Body with
    | none => (s, ⟨400, .error "Error parsing request body"⟩)
    | some newTask =>
      if !ValidateStatus newTask.Status then
        (s, ⟨400, .error "Invalid status field"⟩)
      else
        let stored : Task := { newTask with ID := s.nextID }
        ({ tasks := s.tasks ++ [stored], nextID := s.nextID + 1 }, ⟨201, .task stored⟩)

/-- Go `getAllTasksHandler` (GET /tasks). -/
def getAllTasksHandler (s : Store) (r : Request) : Store × Response :=
  if r.Method ≠ "GET" then
    (s, ⟨405, .error "Invalid request method"⟩)
  else
    (s, ⟨200, .taskList s.tasks⟩)

/-- Go `getTaskByIDHandler` (GET /tasks/{id}). -/
def getTaskByIDHandler (s : Store) (r : Request) : Store × Response :=
  match Atoi (idSegment r.Path) with
  | none => (s, ⟨400, .error "Invalid task ID"⟩)
  | some id =>
    if id < 1 then
      (s, ⟨400, .error "Invalid task ID"⟩)
    else
      match s.tasks.find? (fun task => task.ID = id) with
      | some task => (s, ⟨200, .task task⟩)
      | none => (s, ⟨404, .error "Task not found"⟩)

/-- Go `updateTaskHandler` (PUT /tasks/{id}). -/
def updateTaskHandler (s : Store) (r : Request) : Store × Response :=
  if r.Method ≠ "PUT" then
    (s, ⟨405, .error "Invalid request method"⟩)
  else
    match Atoi (idSegment r.Path) with
    | none => (s, ⟨400, .error "Invalid task ID"⟩)
    | some id =>
      if id < 1 then
        (s, ⟨400, .error "Invalid task ID"⟩)
      else
        match r.Body with
        | none => (s, ⟨400, .error "Error parsing request body"⟩)
        | some updatedTask =>
          if !ValidateStatus updatedTask.Status then
            (s, ⟨400, .error "Invalid status field"⟩)
          else
            match findTask s.tasks id with
            | some i =>
              let stored : Task := { updatedTask with ID := id }
              ({ s with tasks := s.tasks.set i stored }, ⟨200, .task stored⟩)
            | none => (s, ⟨404, .error "Task not found"⟩)

/-- Go `deleteTaskHandler` (DELETE /tasks/{id}). -/
def deleteTaskHandler (s : Store) (r : Request) : Store × Response :=
  if r.Method ≠ "DELETE" then
    (s, ⟨405, .error "Invalid request method"⟩)
  else
    match Atoi (idSegment r.Path) with
    | none => (s, ⟨400, .error "Invalid task ID"⟩)
    | some id =>
      if id < 1 then
        (s, ⟨400, .error "Invalid task ID"⟩)
      else
        match findTask s.tasks id with
        | some i =>
          ({ s with tasks := s.tasks.take i ++ s.tasks.drop (i + 1) },
            ⟨200, .message "Task deleted successfully"⟩)
        | none => (s, ⟨404, .error "Task not found"⟩)

/-- The closure registered in `main` for the pattern `/tasks`. -/
def tasksRoute (s : Store) (r : Request) : Store × Response :=
  if r.Method = "GET" then getAllTasksHandler s r
  else if r.Method = "POST" then createTaskHandler s r
  else (s, ⟨405, .error "Invalid request method"⟩)

/-- The closure registered in `main` for the pattern `/tasks/`. -/
def taskItemRoute (s : Store) (r : Request) : Store × Response :=
  if r.Method = "GET" then getTaskByIDHandler s r
  else if r.Method = "PUT" then updateTaskHandler s r
  else if r.Method = "DELETE" then deleteTaskHandler s r
  else (s, ⟨405, .error "Invalid request method"⟩)

/-- The default `ServeMux` as configured by `main`: `/tasks` matches that path
only, `/tasks/` matches every path below it, and the mux itself answers 404 for
any other path.  `Path` is the already cleaned request path. -/
def serve (s : Store) (r : Request) : Store × Response :=
  if r.Path = "/tasks" then tasksRoute s r
  else if r.Path.data.take 7 = "/tasks/".data then taskItemRoute s r
  else (s, ⟨404, .error "404 page not found"⟩)

/-! ## The counter as a 64-bit `int` -/

/-- Two's-complement wrap-around of a 64-bit Go `int`. -/
def wrapInt (n : Int) : Int := (n - minInt) % 18446744073709551616 + minInt

/-- Go `createTaskHandler` (POST /tasks) with `nextID++` carried out in 64-bit
arithmetic: at `maxInt` the counter wraps to `minInt`. -/
def createTaskHandlerInt64 (s : Store) (r : Request) : Store × Response :=
  if r.Method ≠ "POST" then
    (s, ⟨405, .error "Invalid request method"⟩)
  else
    match r.Body with
    | none => (s, ⟨400, .error "Error parsing request body"⟩)
    | some newTask =>
      if !ValidateStatus newTask.Status then
        (s, ⟨400, .error "Invalid status field"⟩)
      else
        let stored : Task := { newTask with ID := s.nextID }
        ({ tasks := s.tasks ++ [stored], nextID := wrapInt (s.nextID + 1) },
          ⟨201, .task stored⟩)

/-- The closure registered in `main` for the pattern `/tasks`, over
`createTaskHandlerInt64`. -/
def tasksRouteInt64 (s : Store) (r : Request) : Store × Response :=
  if r.Method = "GET" then getAllTasksHandler s r
  else if r.Method = "POST" then createTaskHandlerInt64 s r
  else (s, ⟨405, .error "Invalid request method"⟩)

/-- The default `ServeMux` as configured by `main`, over `tasksRouteInt64`. -/
def serveInt64 (s : Store) (r : Request) : Store × Response :=
  if r.Path = "/tasks" then tasksRouteInt64 s r
  else if r.Path.data.take 7 = "/tasks/".data then taskItemRoute s r
  else (s, ⟨404, .error "404 page not found"⟩)

/-- Store after serving a sequence of requests one after the other. -/
def run (s : Store) : List Request → Store
  | [] => s
  | r :: rs => run (serve s r).1 rs

/-- Responses of a sequence of requests served one after the other. -/
def responses (s : Store) : List Request → List Response
  | [] => []
  | r :: rs => (serve s r).2 :: responses (serve s r).1 rs

/-- A store the server can be in after some sequence of requests since start-up. -/
def Reachable (s : Store) : Prop := ∃ rs : List Request, run initStore rs = s

/-- Request `POST /tasks` with a decoded body. -/
def postTasks (t : Task) : Request := ⟨"POST", "/tasks", some t⟩

/-- Request `GET /tasks/{seg}`. -/
def getTask (seg : String) : Request := ⟨"GET", "/tasks/" ++ seg, none⟩

/-- Request `PUT /tasks/{seg}` with a body as decoded (or not) by the handler. -/
def putTask (seg : String) (b : Option Task) : Request := ⟨"PUT", "/tasks/" ++ seg, b⟩

/-- Request `DELETE /tasks/{seg}`. -/
def deleteTask (seg : String) : Request := ⟨"DELETE", "/tasks/" ++ seg, none⟩

/-! ## Transition kinds and the store invariant -/

/-- Every stored task has a status accepted by `ValidateStatus`. -/
def StatusOk (s : Store) : Prop := ∀ t ∈ s.tasks, ValidateStatus t.Status = true

/-- Sample evaluations of `Atoi`: signs, leading zeros, non-digits, the empty
string and the 64-bit range. -/
theorem Atoi_samples :
    Atoi "12" = some 12 ∧ Atoi "-3" = some (-3) ∧ Atoi "+7" = some 7 ∧ Atoi "007" = some 7 ∧
      Atoi "0" = some 0 ∧ Atoi "abc" = none ∧ Atoi "" = none ∧ Atoi "-" = none ∧
      Atoi "1 " = none ∧ Atoi "9223372036854775807" = some 9223372036854775807 ∧
      Atoi "9223372036854775808" = none ∧ Atoi "-9223372036854775808" = some minInt := by
  decide

theorem idSegment_item (seg : String) : idSegment ("/tasks/" ++ seg) = seg := by
  cases seg with
  | mk cs => rfl

theorem item_path_ne (seg : String) : ("/tasks/" ++ seg) ≠ "/tasks" := by
  cases seg with
  | mk cs =>
    intro h
    have h2 : ("/tasks/".data ++ cs).length = "/tasks".data.length :=
      congrArg (fun x => x.data.length) h
    rw [List.length_append] at h2
    have h3 : "/tasks/".data.length = 7 := rfl
    have h4 : "/tasks".data.length = 6 := rfl
    omega

theorem item_path_take (seg : String) :
    ("/tasks/" ++ seg).data.take 7 = "/tasks/".data := by
  cases seg with
  | mk cs => rfl

theorem serve_postTasks (s : Store) (t : Task) :
    serve s (postTasks t) = createTaskHandler s (postTasks t) := by
  have h : ("POST" : String) ≠ "GET" := by decide
  simp [serve, postTasks, tasksRoute, h]

theorem serve_getTask (s : Store) (seg : String) :
    serve s (getTask seg) = getTaskByIDHandler s (getTask seg) := by
  simp [serve, getTask, taskItemRoute, item_path_ne, item_path_take]

theorem serve_putTask (s : Store) (seg : String) (b : Option Task) :
    serve s (putTask seg b) = updateTaskHandler s (putTask seg b) := by
  have h : ("PUT" : String) ≠ "GET" := by decide
  simp [serve, putTask, taskItemRoute, item_path_ne, item_path_take, h]

theorem serve_deleteTask (s : Store) (seg : String) :
    serve s (deleteTask seg) = deleteTaskHandler s (deleteTask seg) := by
  have h : ("DELETE" : String) ≠ "GET" := by decide
  have h2 : ("DELETE" : String) ≠ "PUT" := by decide
  simp [serve, deleteTask, taskItemRoute, item_path_ne, item_path_take, h, h2]

/-! ## Lemmas on the search loop -/

theorem findTask_none {ts : List Task} {id : Int} :
    findTask ts id = none ↔ ∀ t ∈ ts, t.ID ≠ id := by
  induction ts with
  | nil => simp [findTask]
  | cons t ts ih =>
    by_cases h : t.ID = id
    · simp [findTask, h]
    · simp [findTask, h, ih]

theorem findTask_some {ts : List Task} {id : Int} {i : Nat} (h : findTask ts id = some i) :
    ∃ pre t post, ts = pre ++ t :: post ∧ pre.length = i ∧ t.ID = id ∧
      ∀ x ∈ pre, x.ID ≠ id := by
  induction ts generalizing i with
  | nil => simp [findTask] at h
  | cons t ts ih =>
    by_cases ht : t.ID = id
    · simp [findTask, ht] at h
      exact ⟨[], t, ts, rfl, by simp [h], ht, by simp⟩
    · simp [findTask, ht] at h
      obtain ⟨j, hj, rfl⟩ := h
      obtain ⟨pre, u, post, rfl, hlen, hu, hpre⟩ := ih hj
      refine ⟨t :: pre, u, post, rfl, by simp [hlen], hu, ?_⟩
      intro x hx
      rcases List.mem_cons.mp hx with rfl | hx
      · exact ht
      · exact hpre x hx

theorem findTask_of_mem {ts : List Task} {id : Int} (h : ∃ t ∈ ts, t.ID = id) :
    ∃ i, findTask ts id = some i := by
  cases hf : findTask ts id with
  | some i => exact ⟨i, rfl⟩
  | none =>
    obtain ⟨t, ht, hid⟩ := h
    exact absurd hid (findTask_none.mp hf t ht)

theorem set_at_split {α : Type} (pre : List α) (u x : α) (post : List α) :
    (pre ++ u :: post).set pre.length x = pre ++ x :: post := by
  induction pre with
  | nil => rfl
  | cons a pre ih => simp [List.set, ih]

theorem getElem?_at_split {α : Type} (pre : List α) (u : α) (post : List α) :
    (pre ++ u :: post)[pre.length]? = some u := by
  induction pre with
  | nil => simp
  | cons a pre ih => simpa using ih

theorem remove_at_split {α : Type} (pre : List α) (u : α) (post : List α) :
    (pre ++ u :: post).take pre.length ++ (pre ++ u :: post).drop (pre.length + 1)
      = pre ++ post := by
  induction pre with
  | nil => rfl
  | cons a pre ih => simp

/-! ## The store invariant is kept by every request -/

theorem validateStatus_iff (st : String) :
    ValidateStatus st = true ↔ st = "pending" ∨ st = "completed" := by
  unfold ValidateStatus validStatuses
  by_cases h1 : st = "pending"
  · subst h1; simp [List.lookup]
  · by_cases h2 : st = "completed"
    · subst h2; simp [List.lookup]
    · have e1 : (st == "pending") = false := by simpa using h1
      have e2 : (st == "completed") = false := by simpa using h2
      simp [List.lookup, e1, e2, h1, h2]

/-! ## Creation -/

theorem createTaskHandler_valid (s : Store) (r : Request) (t : Task)
    (hm : r.Method = "POST") (hb : r.Body = some t) (hv : ValidateStatus t.Status = true) :
    createTaskHandler s r =
      ({ tasks := s.tasks ++ [{ t with ID := s.nextID }], nextID := s.nextID + 1 },
        ⟨201, .task { t with ID := s.nextID }⟩) := by
  unfold createTaskHandler
  simp [hm, hb, hv]

theorem wrapInt_of_range (n : Int) (hlo : minInt ≤ n) (hhi : n ≤ maxInt) : wrapInt n = n := by
  unfold wrapInt
  unfold minInt at hlo ⊢
  unfold maxInt at hhi
  omega

theorem createTaskHandlerInt64_eq (s : Store) (r : Request)
    (hlo : minInt ≤ s.nextID) (hhi : s.nextID < maxInt) :
    createTaskHandlerInt64 s r = createTaskHandler s r := by
  have hw : wrapInt (s.nextID + 1) = s.nextID + 1 :=
    wrapInt_of_range _ (by omega) (by omega)
  unfold createTaskHandlerInt64 createTaskHandler
  rw [hw]

/-- On a store whose counter is below `maxInt`, the router with the 64-bit
counter and the router with the unbounded counter give the same result. -/
theorem serveInt64_eq_serve (s : Store) (r : Request)
    (hlo : minInt ≤ s.nextID) (hhi : s.nextID < maxInt) :
    serveInt64 s r = serve s r := by
  unfold serveInt64 serve tasksRouteInt64 tasksRoute
  rw [createTaskHandlerInt64_eq s r hlo hhi]

theorem createTaskHandlerInt64_valid (s : Store) (r : Request) (t : Task)
    (hm : r.Method = "POST") (hb : r.Body = some t) (hv : ValidateStatus t.Status = true) :
    createTaskHandlerInt64 s r =
      ({ tasks := s.tasks ++ [{ t with ID := s.nextID }], nextID := wrapInt (s.nextID + 1) },
        ⟨201, .task { t with ID := s.nextID }⟩) := by
  unfold createTaskHandlerInt64
  simp [hm, hb, hv]

theorem createTaskHandlerInt64_invalid (s : Store) (t : Task)
    (hv : ValidateStatus t.Status = false) :
    createTaskHandlerInt64 s (postTasks t) = (s, ⟨400, .error "Invalid status field"⟩) := by
  unfold createTaskHandlerInt64
  simp [postTasks, hv]

theorem serveInt64_postTasks (s : Store) (t : Task) :
    serveInt64 s (postTasks t) = createTaskHandlerInt64 s (postTasks t) := by
  have h : ("POST" : String) ≠ "GET" := by decide
  simp [serveInt64, postTasks, tasksRouteInt64, h]

/-- C1, as stated, fails at the store whose counter is the largest 64-bit
`int`: a `POST /tasks` with a valid status is answered 201 and the task is
appended with that counter as id, but the new counter is the smallest `int`,
not the old counter plus one. -/
theorem create_counter_wraps_at_maxInt :
    serveInt64 ⟨[], 9223372036854775807⟩ (postTasks ⟨0, "A", "d", "pending"⟩) =
        (⟨[⟨9223372036854775807, "A", "d", "pending"⟩], -9223372036854775808⟩,
          ⟨201, .task ⟨9223372036854775807, "A", "d", "pending"⟩⟩) ∧
      (serveInt64 ⟨[], 9223372036854775807⟩ (postTasks ⟨0, "A", "d", "pending"⟩)).1.nextID ≠
        (⟨[], 9223372036854775807⟩ : Store).nextID + 1 := by
  decide

/-- C1 (amended): in every store whose counter is a 64-bit `int` below the
largest one, and for every `POST /tasks` whose body decodes to a task (its id
a 64-bit `int`) with status "pending" or "completed", the create handler
answers 201 with the task
made of the counter as id and the body's title, description and status, the
new collection is the old one with that task appended at the end, and the new
counter is the old counter plus one; the router dispatches the request to that
handler, and the handler with the unbounded counter gives the same result. -/
theorem create_valid_appends (s : Store) (t : Task)
    (hlo : minInt ≤ s.nextID) (hhi : s.nextID < maxInt)
    (_ht : minInt ≤ t.ID ∧ t.ID ≤ maxInt)
    (h : t.Status = "pending" ∨ t.Status = "completed") :
    createTaskHandlerInt64 s (postTasks t) =
        ({ tasks := s.tasks ++ [⟨s.nextID, t.Title, t.Description, t.Status⟩],
           nextID := s.nextID + 1 },
          ⟨201, .task ⟨s.nextID, t.Title, t.Description, t.Status⟩⟩) ∧
      serveInt64 s (postTasks t) = createTaskHandlerInt64 s (postTasks t) ∧
      serve s (postTasks t) = serveInt64 s (postTasks t) := by
  refine ⟨?_, serveInt64_postTasks s t, (serveInt64_eq_serve s _ hlo hhi).symm⟩
  rw [createTaskHandlerInt64_valid s (postTasks t) t rfl rfl ((validateStatus_iff _).mpr h),
    wrapInt_of_range _ (by omega) (by omega)]

theorem create_valid_appends_witness :
    minInt ≤ (⟨[⟨4, "x", "y", "completed"⟩], 7⟩ : Store).nextID ∧
    (⟨[⟨4, "x", "y", "completed"⟩], 7⟩ : Store).nextID < maxInt ∧
    (minInt ≤ (⟨0, "A", "d", "pending"⟩ : Task).ID ∧
      (⟨0, "A", "d", "pending"⟩ : Task).ID ≤ maxInt) ∧
    ((⟨0, "A", "d", "pending"⟩ : Task).Status = "pending" ∨
      (⟨0, "A", "d", "pending"⟩ : Task).Status = "completed") ∧
    (createTaskHandlerInt64 ⟨[⟨4, "x", "y", "completed"⟩], 7⟩
        (postTasks ⟨0, "A", "d", "pending"⟩) =
        (⟨[⟨4, "x", "y", "completed"⟩, ⟨7, "A", "d", "pending"⟩], 7 + 1⟩,
          ⟨201, .task ⟨7, "A", "d", "pending"⟩⟩) ∧
      serveInt64 ⟨[⟨4, "x", "y", "completed"⟩], 7⟩ (postTasks ⟨0, "A", "d", "pending"⟩) =
        createTaskHandlerInt64 ⟨[⟨4, "x", "y", "completed"⟩], 7⟩
          (postTasks ⟨0, "A", "d", "pending"⟩) ∧
      serve ⟨[⟨4, "x", "y", "completed"⟩], 7⟩ (postTasks ⟨0, "A", "d", "pending"⟩) =
        serveInt64 ⟨[⟨4, "x", "y", "completed"⟩], 7⟩ (postTasks ⟨0, "A", "d", "pending"⟩)) :=
  ⟨by decide, by decide, by decide, Or.inl rfl,
    create_valid_appends ⟨[⟨4, "x", "y", "completed"⟩], 7⟩ ⟨0, "A", "d", "pending"⟩
      (by decide) (by decide) (by decide) (Or.inl rfl)⟩

/-! ## The counter along a run -/

theorem serve_getTask_eq (s : Store) (seg : String) (id : Int)
    (hseg : Atoi seg = some id) (hid : 1 ≤ id) :
    serve s (getTask seg) =
      match s.tasks.find? (fun task => task.ID = id) with
      | some task => (s, ⟨200, .task task⟩)
      | none => (s, ⟨404, .error "Task not found"⟩) := by
  rw [serve_getTask]
  unfold getTaskByIDHandler
  have h : ¬ id < 1 := by omega
  simp only [getTask, idSegment_item, hseg, h, if_false]

theorem serve_deleteTask_eq (s : Store) (seg : String) (id : Int)
    (hseg : Atoi seg = some id) (hid : 1 ≤ id) :
    serve s (deleteTask seg) =
      match findTask s.tasks id with
      | some i => ({ s with tasks := s.tasks.take i ++ s.tasks.drop (i + 1) },
          ⟨200, .message "Task deleted successfully"⟩)
      | none => (s, ⟨404, .error "Task not found"⟩) := by
  rw [serve_deleteTask]
  unfold deleteTaskHandler
  have h : ¬ id < 1 := by omega
  simp only [deleteTask, idSegment_item, hseg, h, if_false, ne_eq, not_true_eq_false]

theorem serve_deleteTask_bad (s : Store) (seg : String)
    (h : Atoi seg = none ∨ ∃ id, Atoi seg = some id ∧ id < 1) :
    serve s (deleteTask seg) = (s, ⟨400, .error "Invalid task ID"⟩) := by
  rw [serve_deleteTask]
  unfold deleteTaskHandler
  rcases h with h | ⟨id, h, hid⟩
  · simp only [deleteTask, idSegment_item, h, ne_eq, not_true_eq_false, if_false]
  · simp only [deleteTask, idSegment_item, h, hid, ne_eq, not_true_eq_false, if_false, if_true]

/-- A deletion answered with 200 had a well-formed id of at least 1 that the
search loop found. -/
theorem serve_deleteTask_ok (s : Store) (seg : String)
    (hok : (serve s (deleteTask seg)).2.code = 200) :
    ∃ (id : Int) (i : Nat), Atoi seg = some id ∧ 1 ≤ id ∧ findTask s.tasks id = some i ∧
      serve s (deleteTask seg) =
        ({ s with tasks := s.tasks.take i ++ s.tasks.drop (i + 1) },
          ⟨200, .message "Task deleted successfully"⟩) := by
  cases hseg : Atoi seg with
  | none =>
    rw [serve_deleteTask_bad s seg (Or.inl hseg)] at hok
    simp at hok
  | some id =>
    by_cases hid : id < 1
    · rw [serve_deleteTask_bad s seg (Or.inr ⟨id, hseg, hid⟩)] at hok
      simp at hok
    · have hid2 : 1 ≤ id := by omega
      have e := serve_deleteTask_eq s seg id hseg hid2
      cases hf : findTask s.tasks id with
      | none =>
        rw [hf] at e
        rw [e] at hok
        simp at hok
      | some i =>
        rw [hf] at e
        exact ⟨id, i, rfl, hid2, hf, e⟩

theorem find_none_of_ne (ts : List Task) (id : Int) (h : ∀ t ∈ ts, t.ID ≠ id) :
    ts.find? (fun task => task.ID = id) = none := by
  rw [List.find?_eq_none]
  intro t ht
  simpa using h t ht

/-- C5: a `DELETE /tasks/i` answered with 200 on a collection of N tasks removes
exactly the first task whose id is i: the collection splits as
`pre ++ t :: post` with t the matching task and no match in `pre`, the new
collection is `pre ++ post` (every other task kept, unchanged, in the same
order), it has N - 1 tasks, and the counter is unchanged. -/
theorem delete_removes_one (s : Store) (seg : String) (i : Int)
    (hseg : Atoi seg = some i) (hok : (serve s (deleteTask seg)).2.code = 200) :
    ∃ pre t post, s.tasks = pre ++ t :: post ∧ t.ID = i ∧ (∀ x ∈ pre, x.ID ≠ i) ∧
      serve s (deleteTask seg) =
        (⟨pre ++ post, s.nextID⟩, ⟨200, .message "Task deleted successfully"⟩) ∧
      (pre ++ post).length = s.tasks.length - 1 ∧
      List.Sublist (pre ++ post) s.tasks := by
  obtain ⟨id, k, hseg2, -, hf, e⟩ := serve_deleteTask_ok s seg hok
  have hid : id = i := by rw [hseg] at hseg2; exact (Option.some.inj hseg2).symm
  subst hid
  obtain ⟨pre, u, post, hts, hlen, hu, hpre⟩ := findTask_some hf
  refine ⟨pre, u, post, hts, hu, hpre, ?_, ?_, ?_⟩
  · rw [e, hts, ← hlen, remove_at_split]
  · rw [hts]; simp
  · rw [hts]
    exact List.Sublist.append (List.Sublist.refl pre) (List.sublist_cons_self u post)

theorem delete_removes_one_witness :
    Atoi "2" = some 2 ∧
    (serve ⟨[⟨1, "A", "", "pending"⟩, ⟨2, "B", "", "pending"⟩, ⟨3, "C", "", "completed"⟩], 4⟩
      (deleteTask "2")).2.code = 200 ∧
    ∃ pre t post,
      ([⟨1, "A", "", "pending"⟩, ⟨2, "B", "", "pending"⟩, ⟨3, "C", "", "completed"⟩] : List Task)
        = pre ++ t :: post ∧ t.ID = 2 ∧ (∀ x ∈ pre, x.ID ≠ 2) ∧
      serve ⟨[⟨1, "A", "", "pending"⟩, ⟨2, "B", "", "pending"⟩, ⟨3, "C", "", "completed"⟩], 4⟩
          (deleteTask "2") =
        (⟨pre ++ post, 4⟩, ⟨200, .message "Task deleted successfully"⟩) ∧
      (pre ++ post).length = 3 - 1 ∧
      List.Sublist (pre ++ post)
        [⟨1, "A", "", "pending"⟩, ⟨2, "B", "", "pending"⟩, ⟨3, "C", "", "completed"⟩] :=
  ⟨by decide, by decide,
    delete_removes_one
      ⟨[⟨1, "A", "", "pending"⟩, ⟨2, "B", "", "pending"⟩, ⟨3, "C", "", "completed"⟩], 4⟩
      "2" 2 (by decide) (by decide)⟩

theorem serve_putTask_eq (s : Store) (seg : String) (t : Task) (id : Int)
    (hseg : Atoi seg = some id) (hid : 1 ≤ id) :
    serve s (putTask seg (some t)) =
      if !ValidateStatus t.Status then (s, ⟨400, .error "Invalid status field"⟩)
      else
        match findTask s.tasks id with
        | some i => ({ s with tasks := s.tasks.set i { t with ID := id } },
            ⟨200, .task { t with ID := id }⟩)
        | none => (s, ⟨404, .error "Task not found"⟩) := by
  rw [serve_putTask]
  unfold updateTaskHandler
  have h : ¬ id < 1 := by omega
  simp only [putTask, idSegment_item, hseg, h, if_false, ne_eq, not_true_eq_false]

theorem serve_putTask_not_ok (s : Store) (seg : String) (b : Option Task)
    (h : Atoi seg = none ∨ (∃ id, Atoi seg = some id ∧ id < 1) ∨ b = none) :
    (serve s (putTask seg b)).2.code = 400 := by
  rw [serve_putTask]
  unfold updateTaskHandler
  simp only [putTask, idSegment_item, ne_eq, not_true_eq_false, if_false]
  cases hseg : Atoi seg with
  | none => rfl
  | some id =>
    by_cases hid : id < 1
    · simp only [hid, if_true]
    · simp only [hid, if_false]
      rcases h with h | ⟨id2, h, hid2⟩ | h
      · rw [hseg] at h; exact absurd h (by simp)
      · rw [hseg] at h
        have : id = id2 := Option.some.inj h
        omega
      · rw [h]

/-- An update answered with 200 had a well-formed id of at least 1, a decoded
body with a valid status, and a task found by the search loop. -/
theorem serve_putTask_ok (s : Store) (seg : String) (b : Option Task)
    (hok : (serve s (putTask seg b)).2.code = 200) :
    ∃ (id : Int) (t : Task) (i : Nat), Atoi seg = some id ∧ 1 ≤ id ∧ b = some t ∧
      ValidateStatus t.Status = true ∧ findTask s.tasks id = some i ∧
      serve s (putTask seg b) =
        ({ s with tasks := s.tasks.set i { t with ID := id } },
          ⟨200, .task { t with ID := id }⟩) := by
  cases hseg : Atoi seg with
  | none =>
    rw [serve_putTask_not_ok s seg b (Or.inl hseg)] at hok
    exact absurd hok (by decide)
  | some id =>
    by_cases hid : id < 1
    · rw [serve_putTask_not_ok s seg b (Or.inr (Or.inl ⟨id, hseg, hid⟩))] at hok
      exact absurd hok (by decide)
    · cases b with
      | none =>
        rw [serve_putTask_not_ok s seg none (Or.inr (Or.inr rfl))] at hok
        exact absurd hok (by decide)
      | some t =>
        have hid2 : 1 ≤ id := by omega
        have e := serve_putTask_eq s seg t id hseg hid2
        cases hv : ValidateStatus t.Status with
        | false =>
          rw [hv] at e
          rw [e] at hok
          simp at hok
        | true =>
          rw [hv] at e
          cases hf : findTask s.tasks id with
          | none =>
            rw [hf] at e
            rw [e] at hok
            simp at hok
          | some i =>
            rw [hf] at e
            exact ⟨id, t, i, rfl, hid2, rfl, hv, hf, by simpa using e⟩

/-- C7: for every `PUT /tasks/i` answered with 200, whatever id the body
carries, the body was decoded to some task t, the search loop matched a
position k holding a task with id i, the task returned and the task stored at
position k are both t with its id replaced by i, and the sequence of ids of the
collection is the same before and after. -/
theorem update_keeps_id (s : Store) (seg : String) (b : Option Task) (i : Int)
    (hseg : Atoi seg = some i) (hok : (serve s (putTask seg b)).2.code = 200) :
    ∃ (t old : Task) (k : Nat), b = some t ∧ findTask s.tasks i = some k ∧
      s.tasks[k]? = some old ∧ old.ID = i ∧
      (serve s (putTask seg b)).2 = ⟨200, .task ⟨i, t.Title, t.Description, t.Status⟩⟩ ∧
      (serve s (putTask seg b)).1.tasks[k]? = some ⟨i, t.Title, t.Description, t.Status⟩ ∧
      (serve s (putTask seg b)).1.tasks.map Task.ID = s.tasks.map Task.ID := by
  obtain ⟨id, t, k, hseg2, -, hb, -, hf, e⟩ := serve_putTask_ok s seg b hok
  have hid : id = i := by rw [hseg] at hseg2; exact (Option.some.inj hseg2).symm
  subst hid
  obtain ⟨pre, u, post, hts, hlen, hu, -⟩ := findTask_some hf
  have hset : s.tasks.set k { t with ID := id } = pre ++ { t with ID := id } :: post := by
    rw [hts, ← hlen]; exact set_at_split pre u _ post
  refine ⟨t, u, k, hb, hf, ?_, hu, ?_, ?_, ?_⟩
  · rw [hts, ← hlen]; exact getElem?_at_split pre u post
  · rw [e]
  · rw [e]
    show (s.tasks.set k { t with ID := id })[k]? = _
    rw [hset, ← hlen]; exact getElem?_at_split pre _ post
  · rw [e]
    show (s.tasks.set k { t with ID := id }).map Task.ID = _
    rw [hset, hts]; simp [hu]

theorem update_keeps_id_witness :
    Atoi "2" = some 2 ∧
    (serve ⟨[⟨1, "A", "", "pending"⟩, ⟨2, "B", "b", "pending"⟩], 3⟩
      (putTask "2" (some ⟨77, "B2", "", "completed"⟩))).2.code = 200 ∧
    ∃ (t old : Task) (k : Nat), some (⟨77, "B2", "", "completed"⟩ : Task) = some t ∧
      findTask [⟨1, "A", "", "pending"⟩, ⟨2, "B", "b", "pending"⟩] 2 = some k ∧
      ([⟨1, "A", "", "pending"⟩, ⟨2, "B", "b", "pending"⟩] : List Task)[k]? = some old ∧
      old.ID = 2 ∧
      (serve ⟨[⟨1, "A", "", "pending"⟩, ⟨2, "B", "b", "pending"⟩], 3⟩
        (putTask "2" (some ⟨77, "B2", "", "completed"⟩))).2 =
          ⟨200, .task ⟨2, t.Title, t.Description, t.Status⟩⟩ ∧
      (serve ⟨[⟨1, "A", "", "pending"⟩, ⟨2, "B", "b", "pending"⟩], 3⟩
        (putTask "2" (some ⟨77, "B2", "", "completed"⟩))).1.tasks[k]? =
          some ⟨2, t.Title, t.Description, t.Status⟩ ∧
      (serve ⟨[⟨1, "A", "", "pending"⟩, ⟨2, "B", "b", "pending"⟩], 3⟩
        (putTask "2" (some ⟨77, "B2", "", "completed"⟩))).1.tasks.map Task.ID =
          ([⟨1, "A", "", "pending"⟩, ⟨2, "B", "b", "pending"⟩] : List Task).map Task.ID :=
  ⟨by decide, by decide,
    update_keeps_id ⟨[⟨1, "A", "", "pending"⟩, ⟨2, "B", "b", "pending"⟩], 3⟩ "2"
      (some ⟨77, "B2", "", "completed"⟩) 2 (by decide) (by decide)⟩

/-- C8: for every store holding a task with id i (ids are at least 1) and every
`PUT /tasks/i` whose decoded body t has a valid status, the answer is 200 with
the task made of i and the title, description and status of t; the collection
splits at the first task with id i as `pre ++ old :: post`, and the new
collection is `pre ++ new :: post` with that same new task, so nothing of `old`
but its id is kept, every other task, the length and the order are unchanged,
and so is the counter. -/
theorem update_full_replace (s : Store) (seg : String) (i : Int) (t : Task)
    (hseg : Atoi seg = some i) (hpos : 1 ≤ i) (hmem : ∃ u ∈ s.tasks, u.ID = i)
    (hv : t.Status = "pending" ∨ t.Status = "completed") :
    ∃ pre old post, s.tasks = pre ++ old :: post ∧ old.ID = i ∧ (∀ x ∈ pre, x.ID ≠ i) ∧
      serve s (putTask seg (some t)) =
        (⟨pre ++ ⟨i, t.Title, t.Description, t.Status⟩ :: post, s.nextID⟩,
          ⟨200, .task ⟨i, t.Title, t.Description, t.Status⟩⟩) ∧
      (pre ++ (⟨i, t.Title, t.Description, t.Status⟩ : Task) :: post).length = s.tasks.length := by
  obtain ⟨k, hf⟩ := findTask_of_mem hmem
  obtain ⟨pre, u, post, hts, hlen, hu, hpre⟩ := findTask_some hf
  refine ⟨pre, u, post, hts, hu, hpre, ?_, by rw [hts]; simp⟩
  rw [serve_putTask_eq s seg t i hseg hpos, (validateStatus_iff _).mpr hv, hf]
  simp only [Bool.not_true, Bool.false_eq_true, if_false]
  rw [hts, ← hlen, set_at_split]

theorem update_full_replace_witness :
    Atoi "1" = some 1 ∧ (1 : Int) ≤ 1 ∧
    (∃ u ∈ ([⟨1, "A", "d", "pending"⟩, ⟨2, "A", "d", "pending"⟩] : List Task), u.ID = 1) ∧
    ((⟨0, "A2", "d2", "completed"⟩ : Task).Status = "pending" ∨
      (⟨0, "A2", "d2", "completed"⟩ : Task).Status = "completed") ∧
    ∃ pre old post,
      ([⟨1, "A", "d", "pending"⟩, ⟨2, "A", "d", "pending"⟩] : List Task) = pre ++ old :: post ∧
      old.ID = 1 ∧ (∀ x ∈ pre, x.ID ≠ 1) ∧
      serve ⟨[⟨1, "A", "d", "pending"⟩, ⟨2, "A", "d", "pending"⟩], 3⟩
          (putTask "1" (some ⟨0, "A2", "d2", "completed"⟩)) =
        (⟨pre ++ ⟨1, "A2", "d2", "completed"⟩ :: post, 3⟩,
          ⟨200, .task ⟨1, "A2", "d2", "completed"⟩⟩) ∧
      (pre ++ (⟨1, "A2", "d2", "completed"⟩ : Task) :: post).length = 2 :=
  ⟨by decide, by decide, ⟨⟨1, "A", "d", "pending"⟩, by simp, rfl⟩, Or.inr rfl,
    update_full_replace ⟨[⟨1, "A", "d", "pending"⟩, ⟨2, "A", "d", "pending"⟩], 3⟩ "1" 1
      ⟨0, "A2", "d2", "completed"⟩ (by decide) (by decide)
      ⟨⟨1, "A", "d", "pending"⟩, by simp, rfl⟩ (Or.inr rfl)⟩

/-! ## Invalid status -/

theorem validateStatus_false (st : String) (h : st ≠ "pending" ∧ st ≠ "completed") :
    ValidateStatus st = false := by
  cases hv : ValidateStatus st with
  | false => rfl
  | true =>
    rcases (validateStatus_iff st).mp hv with h1 | h1
    · exact absurd h1 h.1
    · exact absurd h1 h.2

/-- C9: in every store, a `POST /tasks` whose decoded body has a status other
than exactly "pending" or "completed" is answered 400 "Invalid status field" by
the create handler, and the collection and the counter are left as they were,
so a following `GET /tasks` lists the same collection; the empty status of a
missing field and the casing "Pending" are such statuses. -/
theorem create_invalid_status (s : Store) (t : Task)
    (h : t.Status ≠ "pending" ∧ t.Status ≠ "completed") :
    createTaskHandler s (postTasks t) = (s, ⟨400, .error "Invalid status field"⟩) ∧
      serve s (postTasks t) = (s, ⟨400, .error "Invalid status field"⟩) ∧
      serve (serve s (postTasks t)).1 ⟨"GET", "/tasks", none⟩ = (s, ⟨200, .taskList s.tasks⟩) ∧
      ValidateStatus "" = false ∧ ValidateStatus "Pending" = false := by
  have e : createTaskHandler s (postTasks t) = (s, ⟨400, .error "Invalid status field"⟩) := by
    unfold createTaskHandler
    simp [postTasks, validateStatus_false t.Status h]
  have e2 : serve s (postTasks t) = (s, ⟨400, .error "Invalid status field"⟩) := by
    rw [serve_postTasks, e]
  refine ⟨e, e2, ?_, by decide, by decide⟩
  rw [e2]
  simp [serve, tasksRoute, getAllTasksHandler]

theorem create_invalid_status_witness :
    ((⟨0, "A", "d", "Pending"⟩ : Task).Status ≠ "pending" ∧
      (⟨0, "A", "d", "Pending"⟩ : Task).Status ≠ "completed") ∧
    (createTaskHandler ⟨[⟨1, "x", "", "pending"⟩], 2⟩ (postTasks ⟨0, "A", "d", "Pending"⟩) =
        (⟨[⟨1, "x", "", "pending"⟩], 2⟩, ⟨400, .error "Invalid status field"⟩) ∧
      serve ⟨[⟨1, "x", "", "pending"⟩], 2⟩ (postTasks ⟨0, "A", "d", "Pending"⟩) =
        (⟨[⟨1, "x", "", "pending"⟩], 2⟩, ⟨400, .error "Invalid status field"⟩) ∧
      serve (serve ⟨[⟨1, "x", "", "pending"⟩], 2⟩ (postTasks ⟨0, "A", "d", "Pending"⟩)).1
          ⟨"GET", "/tasks", none⟩ =
        (⟨[⟨1, "x", "", "pending"⟩], 2⟩, ⟨200, .taskList [⟨1, "x", "", "pending"⟩]⟩) ∧
      ValidateStatus "" = false ∧ ValidateStatus "Pending" = false) :=
  ⟨by decide,
    create_invalid_status ⟨[⟨1, "x", "", "pending"⟩], 2⟩ ⟨0, "A", "d", "Pending"⟩ (by decide)⟩

/-- C10: in every store, a `PUT /tasks/i` with a well-formed id i of at least 1
and a decoded body whose status is not "pending" or "completed" is answered
400 "Invalid status field" with the collection and the counter left as they
were, whether or not a task with id i exists: the status is checked before the
search, so an absent id gives 400 here, not 404. -/
theorem update_invalid_status (s : Store) (seg : String) (i : Int) (t : Task)
    (hseg : Atoi seg = some i) (hpos : 1 ≤ i)
    (h : t.Status ≠ "pending" ∧ t.Status ≠ "completed") :
    updateTaskHandler s (putTask seg (some t)) = (s, ⟨400, .error "Invalid status field"⟩) ∧
      serve s (putTask seg (some t)) = (s, ⟨400, .error "Invalid status field"⟩) := by
  have e : serve s (putTask seg (some t)) = (s, ⟨400, .error "Invalid status field"⟩) := by
    rw [serve_putTask_eq s seg t i hseg hpos, validateStatus_false t.Status h]
    simp
  exact ⟨by rw [← serve_putTask, e], e⟩

theorem update_invalid_status_witness :
    Atoi "5" = some 5 ∧ (1 : Int) ≤ 5 ∧
    ((⟨0, "A", "d", ""⟩ : Task).Status ≠ "pending" ∧
      (⟨0, "A", "d", ""⟩ : Task).Status ≠ "completed") ∧
    findTask [⟨1, "x", "", "pending"⟩] 5 = none ∧
    (updateTaskHandler ⟨[⟨1, "x", "", "pending"⟩], 2⟩ (putTask "5" (some ⟨0, "A", "d", ""⟩)) =
        (⟨[⟨1, "x", "", "pending"⟩], 2⟩, ⟨400, .error "Invalid status field"⟩) ∧
      serve ⟨[⟨1, "x", "", "pending"⟩], 2⟩ (putTask "5" (some ⟨0, "A", "d", ""⟩)) =
        (⟨[⟨1, "x", "", "pending"⟩], 2⟩, ⟨400, .error "Invalid status field"⟩)) :=
  ⟨by decide, by decide, by decide, by decide,
    update_invalid_status ⟨[⟨1, "x", "", "pending"⟩], 2⟩ "5" 5 ⟨0, "A", "d", ""⟩
      (by decide) (by decide) (by decide)⟩

/-! ## Stored statuses -/

theorem createTaskHandler_status (s : Store) (r : Request) (h : StatusOk s) :
    StatusOk (createTaskHandler s r).1 := by
  unfold createTaskHandler
  by_cases hm : r.Method ≠ "POST"
  · rw [if_pos hm]; exact h
  · rw [if_neg hm]
    cases r.Body with
    | none => exact h
    | some t =>
      cases hv : ValidateStatus t.Status with
      | false => simpa [hv] using h
      | true =>
        simp only [hv, Bool.not_true, Bool.false_eq_true, if_false]
        intro x hx
        rcases List.mem_append.mp hx with hx | hx
        · exact h x hx
        · rw [List.mem_singleton] at hx
          rw [hx]; exact hv

theorem updateTaskHandler_status (s : Store) (r : Request) (h : StatusOk s) :
    StatusOk (updateTaskHandler s r).1 := by
  unfold updateTaskHandler
  by_cases hm : r.Method ≠ "PUT"
  · rw [if_pos hm]; exact h
  · rw [if_neg hm]
    cases Atoi (idSegment r.Path) with
    | none => exact h
    | some id =>
      by_cases hid : id < 1
      · simpa only [hid, if_true] using h
      · simp only [hid, if_false]
        cases r.Body with
        | none => exact h
        | some t =>
          cases hv : ValidateStatus t.Status with
          | false => simpa [hv] using h
          | true =>
            simp only [hv, Bool.not_true, Bool.false_eq_true, if_false]
            cases findTask s.tasks id with
            | none => exact h
            | some i =>
              intro x hx
              rcases List.mem_or_eq_of_mem_set hx with hx | hx
              · exact h x hx
              · rw [hx]; exact hv

theorem deleteTaskHandler_status (s : Store) (r : Request) (h : StatusOk s) :
    StatusOk (deleteTaskHandler s r).1 := by
  unfold deleteTaskHandler
  by_cases hm : r.Method ≠ "DELETE"
  · rw [if_pos hm]; exact h
  · rw [if_neg hm]
    cases Atoi (idSegment r.Path) with
    | none => exact h
    | some id =>
      by_cases hid : id < 1
      · simpa only [hid, if_true] using h
      · simp only [hid, if_false]
        cases findTask s.tasks id with
        | none => exact h
        | some i =>
          intro x hx
          rcases List.mem_append.mp hx with hx | hx
          · exact h x (List.mem_of_mem_take hx)
          · exact h x (List.mem_of_mem_drop hx)

theorem getAllTasksHandler_store (s : Store) (r : Request) : (getAllTasksHandler s r).1 = s := by
  unfold getAllTasksHandler
  split_ifs <;> rfl

theorem getTaskByIDHandler_store (s : Store) (r : Request) : (getTaskByIDHandler s r).1 = s := by
  unfold getTaskByIDHandler
  cases Atoi (idSegment r.Path) with
  | none => rfl
  | some id =>
    by_cases hid : id < 1
    · simp only [hid, if_true]
    · simp only [hid, if_false]
      cases s.tasks.find? (fun task => task.ID = id) <;> rfl

theorem serve_status (s : Store) (r : Request) (h : StatusOk s) : StatusOk (serve s r).1 := by
  unfold serve tasksRoute taskItemRoute
  split_ifs
  · rw [getAllTasksHandler_store]; exact h
  · exact createTaskHandler_status s r h
  · exact h
  · rw [getTaskByIDHandler_store]; exact h
  · exact updateTaskHandler_status s r h
  · exact deleteTaskHandler_status s r h
  · exact h
  · exact h

theorem run_status (rs : List Request) (s : Store) (h : StatusOk s) : StatusOk (run s rs) := by
  induction rs generalizing s with
  | nil => exact h
  | cons r rs ih => exact ih _ (serve_status s r h)

/-- C11: in every store reachable from the initial store by any sequence of
requests, the status of every task in the collection is "pending" or
"completed". -/
theorem reachable_status_valid (s : Store) (h : Reachable s) :
    ∀ t ∈ s.tasks, t.Status = "pending" ∨ t.Status = "completed" := by
  obtain ⟨rs, rfl⟩ := h
  intro t ht
  have h0 : StatusOk initStore := by
    intro x hx
    simp [initStore] at hx
  exact (validateStatus_iff _).mp (run_status rs initStore h0 t ht)

theorem reachable_status_valid_witness :
    Reachable ⟨[⟨1, "A2", "d2", "completed"⟩, ⟨2, "B", "", "pending"⟩], 3⟩ ∧
      ∀ t ∈ ([⟨1, "A2", "d2", "completed"⟩, ⟨2, "B", "", "pending"⟩] : List Task),
        t.Status = "pending" ∨ t.Status = "completed" :=
  ⟨⟨[postTasks ⟨0, "A", "d", "pending"⟩, postTasks ⟨0, "B", "", "pending"⟩,
      postTasks ⟨0, "C", "", "done"⟩, putTask "2" (some ⟨0, "B9", "", "Completed"⟩),
      putTask "1" (some ⟨5, "A2", "d2", "completed"⟩)], by decide⟩,
    reachable_status_valid ⟨[⟨1, "A2", "d2", "completed"⟩, ⟨2, "B", "", "pending"⟩], 3⟩
      ⟨[postTasks ⟨0, "A", "d", "pending"⟩, postTasks ⟨0, "B", "", "pending"⟩,
        postTasks ⟨0, "C", "", "done"⟩, putTask "2" (some ⟨0, "B9", "", "Completed"⟩),
        putTask "1" (some ⟨5, "A2", "d2", "completed"⟩)], by decide⟩⟩

/-! ## The counter counts the creations -/

/-- C13: served from the initial store, the scenario POST {A, d, pending},
the same POST again, GET /tasks/1, PUT /tasks/1 {A2, d2, completed},
DELETE /tasks/2, GET /tasks/2 is answered, in this order, by 201 with
{1, A, d, pending}, 201 with id 2, 200 with the first task, 200 with
{1, A2, d2, completed}, 200 with the message "Task deleted successfully", and
404; the store is then the single updated task with the counter at 3. -/
theorem scenario_responses :
    responses initStore
        [postTasks ⟨0, "A", "d", "pending"⟩, postTasks ⟨0, "A", "d", "pending"⟩,
          getTask "1", putTask "1" (some ⟨0, "A2", "d2", "completed"⟩),
          deleteTask "2", getTask "2"] =
      [⟨201, .task ⟨1, "A", "d", "pending"⟩⟩, ⟨201, .task ⟨2, "A", "d", "pending"⟩⟩,
        ⟨200, .task ⟨1, "A", "d", "pending"⟩⟩, ⟨200, .task ⟨1, "A2", "d2", "completed"⟩⟩,
        ⟨200, .message "Task deleted successfully"⟩, ⟨404, .error "Task not found"⟩] ∧
    run initStore
        [postTasks ⟨0, "A", "d", "pending"⟩, postTasks ⟨0, "A", "d", "pending"⟩,
          getTask "1", putTask "1" (some ⟨0, "A2", "d2", "completed"⟩),
          deleteTask "2", getTask "2"] =
      ⟨[⟨1, "A2", "d2", "completed"⟩], 3⟩ := by
  decide

/-! ## Requests with an arbitrary body -/

theorem serve_collection (s : Store) (m : String) (b : Option Task) :
    serve s ⟨m, "/tasks", b⟩ = tasksRoute s ⟨m, "/tasks", b⟩ := by
  simp [serve]

theorem serve_item (s : Store) (m seg : String) (b : Option Task) :
    serve s ⟨m, "/tasks/" ++ seg, b⟩ = taskItemRoute s ⟨m, "/tasks/" ++ seg, b⟩ := by
  simp [serve, item_path_ne, item_path_take]

theorem serve_get_body (s : Store) (seg : String) (b : Option Task) :
    serve s ⟨"GET", "/tasks/" ++ seg, b⟩ = serve s (getTask seg) := by
  rw [serve_getTask, serve_item]
  simp [taskItemRoute, getTaskByIDHandler, getTask]

theorem serve_delete_body (s : Store) (seg : String) (b : Option Task) :
    serve s ⟨"DELETE", "/tasks/" ++ seg, b⟩ = serve s (deleteTask seg) := by
  have h : ("DELETE" : String) ≠ "GET" := by decide
  have h2 : ("DELETE" : String) ≠ "PUT" := by decide
  rw [serve_deleteTask, serve_item]
  simp [taskItemRoute, deleteTaskHandler, deleteTask, h, h2]

theorem serve_getTask_bad (s : Store) (seg : String)
    (h : Atoi seg = none ∨ ∃ id, Atoi seg = some id ∧ id < 1) :
    serve s (getTask seg) = (s, ⟨400, .error "Invalid task ID"⟩) := by
  rw [serve_getTask]
  unfold getTaskByIDHandler
  rcases h with h | ⟨id, h, hid⟩
  · simp only [getTask, idSegment_item, h]
  · simp only [getTask, idSegment_item, h, hid, if_true]

theorem serve_putTask_bad (s : Store) (seg : String) (b : Option Task)
    (h : Atoi seg = none ∨ ∃ id, Atoi seg = some id ∧ id < 1) :
    serve s (putTask seg b) = (s, ⟨400, .error "Invalid task ID"⟩) := by
  rw [serve_putTask]
  unfold updateTaskHandler
  rcases h with h | ⟨id, h, hid⟩
  · simp only [putTask, idSegment_item, h, ne_eq, not_true_eq_false, if_false]
  · simp only [putTask, idSegment_item, h, hid, ne_eq, not_true_eq_false, if_false, if_true]

/-- C14: for GET, PUT and DELETE on `/tasks/{seg}`, whatever the body, if the
segment is not accepted by `Atoi` or denotes a value below 1, the answer is
400 "Invalid task ID" and the store is returned as it was, the same for every
collection (the search loop is not reached); "abc" and the empty segment are
not accepted, "0" and "-3" denote values below 1. -/
theorem invalid_id_rejected (s : Store) (seg : String) (b : Option Task)
    (h : Atoi seg = none ∨ ∃ id, Atoi seg = some id ∧ id < 1) :
    serve s ⟨"GET", "/tasks/" ++ seg, b⟩ = (s, ⟨400, .error "Invalid task ID"⟩) ∧
      serve s ⟨"PUT", "/tasks/" ++ seg, b⟩ = (s, ⟨400, .error "Invalid task ID"⟩) ∧
      serve s ⟨"DELETE", "/tasks/" ++ seg, b⟩ = (s, ⟨400, .error "Invalid task ID"⟩) ∧
      Atoi "abc" = none ∧ Atoi "" = none ∧ Atoi "0" = some 0 ∧ Atoi "-3" = some (-3) := by
  refine ⟨?_, serve_putTask_bad s seg b h, ?_, by decide, by decide, by decide, by decide⟩
  · rw [serve_get_body, serve_getTask_bad s seg h]
  · rw [serve_delete_body, serve_deleteTask_bad s seg h]

theorem invalid_id_rejected_witness :
    (Atoi "-3" = none ∨ ∃ id, Atoi "-3" = some id ∧ id < 1) ∧
    (serve ⟨[⟨1, "A", "", "pending"⟩], 2⟩
        ⟨"GET", "/tasks/" ++ "-3", some ⟨0, "x", "", "pending"⟩⟩ =
        (⟨[⟨1, "A", "", "pending"⟩], 2⟩, ⟨400, .error "Invalid task ID"⟩) ∧
      serve ⟨[⟨1, "A", "", "pending"⟩], 2⟩
        ⟨"PUT", "/tasks/" ++ "-3", some ⟨0, "x", "", "pending"⟩⟩ =
        (⟨[⟨1, "A", "", "pending"⟩], 2⟩, ⟨400, .error "Invalid task ID"⟩) ∧
      serve ⟨[⟨1, "A", "", "pending"⟩], 2⟩
        ⟨"DELETE", "/tasks/" ++ "-3", some ⟨0, "x", "", "pending"⟩⟩ =
        (⟨[⟨1, "A", "", "pending"⟩], 2⟩, ⟨400, .error "Invalid task ID"⟩) ∧
      Atoi "abc" = none ∧ Atoi "" = none ∧ Atoi "0" = some 0 ∧ Atoi "-3" = some (-3)) :=
  ⟨Or.inr ⟨-3, by decide, by decide⟩,
    invalid_id_rejected ⟨[⟨1, "A", "", "pending"⟩], 2⟩ "-3" (some ⟨0, "x", "", "pending"⟩)
      (Or.inr ⟨-3, by decide, by decide⟩)⟩

/-! ## Absent ids and unsupported methods -/

/-- C15: for a path segment denoting an id i of at least 1 that no task in the
collection has, GET and DELETE (whatever the body) and PUT with a decoded body
of valid status are answered 404 "Task not found", and the collection and the
counter are returned as they were. -/
theorem absent_id_not_found (s : Store) (seg : String) (i : Int) (b : Option Task) (t : Task)
    (hseg : Atoi seg = some i) (hpos : 1 ≤ i) (habs : ∀ u ∈ s.tasks, u.ID ≠ i)
    (hv : t.Status = "pending" ∨ t.Status = "completed") :
    serve s ⟨"GET", "/tasks/" ++ seg, b⟩ = (s, ⟨404, .error "Task not found"⟩) ∧
      serve s ⟨"PUT", "/tasks/" ++ seg, some t⟩ = (s, ⟨404, .error "Task not found"⟩) ∧
      serve s ⟨"DELETE", "/tasks/" ++ seg, b⟩ = (s, ⟨404, .error "Task not found"⟩) := by
  refine ⟨?_, ?_, ?_⟩
  · rw [serve_get_body, serve_getTask_eq s seg i hseg hpos, find_none_of_ne s.tasks i habs]
  · show serve s (putTask seg (some t)) = _
    rw [serve_putTask_eq s seg t i hseg hpos, (validateStatus_iff _).mpr hv,
      findTask_none.mpr habs]
    simp
  · rw [serve_delete_body, serve_deleteTask_eq s seg i hseg hpos, findTask_none.mpr habs]

theorem absent_id_not_found_witness :
    Atoi "7" = some 7 ∧ (1 : Int) ≤ 7 ∧
    (∀ u ∈ ([⟨1, "A", "", "pending"⟩] : List Task), u.ID ≠ 7) ∧
    ((⟨0, "B", "", "completed"⟩ : Task).Status = "pending" ∨
      (⟨0, "B", "", "completed"⟩ : Task).Status = "completed") ∧
    (serve ⟨[⟨1, "A", "", "pending"⟩], 2⟩ ⟨"GET", "/tasks/" ++ "7", none⟩ =
        (⟨[⟨1, "A", "", "pending"⟩], 2⟩, ⟨404, .error "Task not found"⟩) ∧
      serve ⟨[⟨1, "A", "", "pending"⟩], 2⟩
          ⟨"PUT", "/tasks/" ++ "7", some ⟨0, "B", "", "completed"⟩⟩ =
        (⟨[⟨1, "A", "", "pending"⟩], 2⟩, ⟨404, .error "Task not found"⟩) ∧
      serve ⟨[⟨1, "A", "", "pending"⟩], 2⟩ ⟨"DELETE", "/tasks/" ++ "7", none⟩ =
        (⟨[⟨1, "A", "", "pending"⟩], 2⟩, ⟨404, .error "Task not found"⟩)) :=
  ⟨by decide, by decide, by decide, Or.inr rfl,
    absent_id_not_found ⟨[⟨1, "A", "", "pending"⟩], 2⟩ "7" 7 none ⟨0, "B", "", "completed"⟩
      (by decide) (by decide) (by decide) (Or.inr rfl)⟩

/-- C16: on `/tasks` every method other than GET and POST, and on
`/tasks/{seg}` every method other than GET, PUT and DELETE, is answered 405
"Invalid request method" by the closure registered in `main`, whatever the
path segment and the body are, with the store returned as it was; the
handlers that check the method themselves answer the same way. -/
theorem method_not_allowed (s : Store) (m seg : String) (b : Option Task) :
    (m ≠ "GET" ∧ m ≠ "POST" →
        serve s ⟨m, "/tasks", b⟩ = (s, ⟨405, .error "Invalid request method"⟩)) ∧
      (m ≠ "GET" ∧ m ≠ "PUT" ∧ m ≠ "DELETE" →
        serve s ⟨m, "/tasks/" ++ seg, b⟩ = (s, ⟨405, .error "Invalid request method"⟩)) ∧
      (∀ r : Request, r.Method ≠ "POST" →
        createTaskHandler s r = (s, ⟨405, .error "Invalid request method"⟩)) ∧
      (∀ r : Request, r.Method ≠ "GET" →
        getAllTasksHandler s r = (s, ⟨405, .error "Invalid request method"⟩)) ∧
      (∀ r : Request, r.Method ≠ "PUT" →
        updateTaskHandler s r = (s, ⟨405, .error "Invalid request method"⟩)) ∧
      (∀ r : Request, r.Method ≠ "DELETE" →
        deleteTaskHandler s r = (s, ⟨405, .error "Invalid request method"⟩)) := by
  refine ⟨?_, ?_, ?_, ?_, ?_, ?_⟩
  · rintro ⟨h1, h2⟩
    rw [serve_collection]
    simp [tasksRoute, h1, h2]
  · rintro ⟨h1, h2, h3⟩
    rw [serve_item]
    simp [taskItemRoute, h1, h2, h3]
  · intro r h
    unfold createTaskHandler
    rw [if_pos h]
  · intro r h
    unfold getAllTasksHandler
    rw [if_pos h]
  · intro r h
    unfold updateTaskHandler
    rw [if_pos h]
  · intro r h
    unfold deleteTaskHandler
    rw [if_pos h]

theorem method_not_allowed_witness :
    (("PATCH" : String) ≠ "GET" ∧ ("PATCH" : String) ≠ "POST") ∧
    serve ⟨[⟨1, "A", "", "pending"⟩], 2⟩ ⟨"PATCH", "/tasks", none⟩ =
      (⟨[⟨1, "A", "", "pending"⟩], 2⟩, ⟨405, .error "Invalid request method"⟩) ∧
    (("PATCH" : String) ≠ "GET" ∧ ("PATCH" : String) ≠ "PUT" ∧ ("PATCH" : String) ≠ "DELETE") ∧
    serve ⟨[⟨1, "A", "", "pending"⟩], 2⟩ ⟨"PATCH", "/tasks/" ++ "abc", none⟩ =
      (⟨[⟨1, "A", "", "pending"⟩], 2⟩, ⟨405, .error "Invalid request method"⟩) ∧
    updateTaskHandler ⟨[⟨1, "A", "", "pending"⟩], 2⟩ ⟨"POST", "/tasks/abc", none⟩ =
      (⟨[⟨1, "A", "", "pending"⟩], 2⟩, ⟨405, .error "Invalid request method"⟩) :=
  ⟨by decide,
    (method_not_allowed ⟨[⟨1, "A", "", "pending"⟩], 2⟩ "PATCH" "abc" none).1 (by decide),
    by decide,
    (method_not_allowed ⟨[⟨1, "A", "", "pending"⟩], 2⟩ "PATCH" "abc" none).2.1 (by decide),
    (method_not_allowed ⟨[⟨1, "A", "", "pending"⟩], 2⟩ "PATCH" "abc" none).2.2.2.2.1
      ⟨"POST", "/tasks/abc", none⟩ (by decide)⟩

/-! ## Repeating a request -/

theorem createTaskHandler_invalid (s : Store) (t : Task) (hv : ValidateStatus t.Status = false) :
    createTaskHandler s (postTasks t) = (s, ⟨400, .error "Invalid status field"⟩) := by
  unfold createTaskHandler
  simp [postTasks, hv]

/-- C20: the id carried by the body of `POST /tasks` is ignored: in every
store (counter a 64-bit `int`), two creation requests whose decoded bodies
differ only in their id (any two 64-bit `int` values) get the same answer and
leave the same store, and when the creation succeeds (201) the task stored at
the end of the collection and returned has the counter as id, not the id of
the body. -/
theorem create_ignores_body_id (s : Store) (t : Task) (i j : Int)
    (_hs : minInt ≤ s.nextID ∧ s.nextID ≤ maxInt)
    (_hi : minInt ≤ i ∧ i ≤ maxInt) (_hj : minInt ≤ j ∧ j ≤ maxInt) :
    serveInt64 s (postTasks ⟨i, t.Title, t.Description, t.Status⟩) =
        serveInt64 s (postTasks ⟨j, t.Title, t.Description, t.Status⟩) ∧
      ((serveInt64 s (postTasks ⟨i, t.Title, t.Description, t.Status⟩)).2.code = 201 →
        serveInt64 s (postTasks ⟨i, t.Title, t.Description, t.Status⟩) =
          (⟨s.tasks ++ [⟨s.nextID, t.Title, t.Description, t.Status⟩], wrapInt (s.nextID + 1)⟩,
            ⟨201, .task ⟨s.nextID, t.Title, t.Description, t.Status⟩⟩)) := by
  constructor
  · rw [serveInt64_postTasks, serveInt64_postTasks]
    cases hv : ValidateStatus t.Status with
    | false =>
      rw [createTaskHandlerInt64_invalid s ⟨i, t.Title, t.Description, t.Status⟩ hv,
        createTaskHandlerInt64_invalid s ⟨j, t.Title, t.Description, t.Status⟩ hv]
    | true =>
      rw [createTaskHandlerInt64_valid s (postTasks ⟨i, t.Title, t.Description, t.Status⟩) _
          rfl rfl hv,
        createTaskHandlerInt64_valid s (postTasks ⟨j, t.Title, t.Description, t.Status⟩) _
          rfl rfl hv]
  · intro hok
    rw [serveInt64_postTasks] at hok ⊢
    cases hv : ValidateStatus t.Status with
    | false =>
      rw [createTaskHandlerInt64_invalid s ⟨i, t.Title, t.Description, t.Status⟩ hv] at hok
      simp at hok
    | true =>
      exact createTaskHandlerInt64_valid s (postTasks ⟨i, t.Title, t.Description, t.Status⟩)
        ⟨i, t.Title, t.Description, t.Status⟩ rfl rfl hv

theorem create_ignores_body_id_witness :
    (minInt ≤ (⟨[⟨1, "A", "", "pending"⟩], 2⟩ : Store).nextID ∧
      (⟨[⟨1, "A", "", "pending"⟩], 2⟩ : Store).nextID ≤ maxInt) ∧
    (minInt ≤ 99 ∧ (99 : Int) ≤ maxInt) ∧ (minInt ≤ 1 ∧ (1 : Int) ≤ maxInt) ∧
    serveInt64 ⟨[⟨1, "A", "", "pending"⟩], 2⟩ (postTasks ⟨99, "B", "b", "completed"⟩) =
      serveInt64 ⟨[⟨1, "A", "", "pending"⟩], 2⟩ (postTasks ⟨1, "B", "b", "completed"⟩) ∧
    (serveInt64 ⟨[⟨1, "A", "", "pending"⟩], 2⟩
      (postTasks ⟨99, "B", "b", "completed"⟩)).2.code = 201 ∧
    serveInt64 ⟨[⟨1, "A", "", "pending"⟩], 2⟩ (postTasks ⟨99, "B", "b", "completed"⟩) =
      (⟨[⟨1, "A", "", "pending"⟩, ⟨2, "B", "b", "completed"⟩], wrapInt (2 + 1)⟩,
        ⟨201, .task ⟨2, "B", "b", "completed"⟩⟩) ∧
    wrapInt (2 + 1) = 3 :=
  ⟨by decide, by decide, by decide,
    (create_ignores_body_id ⟨[⟨1, "A", "", "pending"⟩], 2⟩ ⟨0, "B", "b", "completed"⟩ 99 1
      (by decide) (by decide) (by decide)).1,
    by decide,
    (create_ignores_body_id ⟨[⟨1, "A", "", "pending"⟩], 2⟩ ⟨0, "B", "b", "completed"⟩ 99 1
      (by decide) (by decide) (by decide)).2 (by decide),
    by decide⟩

end TaskApi
